import Mathlib

/-!
Verification development for the hivemoot-bot PR governance core.

The definitions below are shallow embeddings of the TypeScript sources:

* `src/api/lib/automerge.ts` — `isFileAllowed`, `classifyFiles`,
  `evaluateAutomerge`, `isTransientError`, `TRANSIENT_NETWORK_CODES`.
* the status webhook handler (its implementation file is not among the
  provided sources, only its test; it is modelled from the specification
  and that test, see `handleStatusEvent`).

External collaborators (the `minimatch` glob library and the `isLabelMatch`
label helper) are taken as function parameters; the remote PR-operations
client is modelled as a record of oracle results (`PROps`), and each remote
call the evaluator performs is recorded in an ordered trace (`RemoteCall`).
JavaScript numbers appearing here are non-negative counts, modelled as `Nat`
(HTTP status values, which tests exercise as integers, use `Int`).
-/

-- ───────────────────────────────────────────────────────────────────────────
-- Data model (automerge.ts)
-- ───────────────────────────────────────────────────────────────────────────

/-- Shape of a file entry from `PROperations.listFiles` (automerge.ts).
`previous_filename` is `some p` when the JS field is the string `p`, and
`none` when the field is absent; the empty string is a falsy JS value. -/
structure PRFile where
  filename : String
  additions : Nat
  deletions : Nat
  changes : Nat
  status : String
  previous_filename : Option String
deriving DecidableEq, Repr

/-- The automerge policy block from `repo-config` (fields used by the core). -/
structure AutomergeConfig where
  dryRun : Bool
  allowedPaths : List String
  denyPaths : List String
  maxFiles : Nat
  maxChangedLines : Nat
  minApprovals : Nat
  requireChecks : Bool
deriving DecidableEq, Repr

/-- The `ClassifyResult` shape from automerge.ts. -/
structure ClassifyResult where
  eligible : Bool
  reason : String
deriving DecidableEq, Repr

-- ───────────────────────────────────────────────────────────────────────────
-- isFileAllowed (automerge.ts lines 72-92)
-- ───────────────────────────────────────────────────────────────────────────

/-- The function `isFileAllowed(filename, allowedPaths, denyPaths)`.
The glob matcher is a parameter: `minimatch filename pattern` stands for the
library call `minimatch(filename, pattern, { dot: true })`.
Deny patterns are scanned first, then the file must match an allow pattern. -/
def isFileAllowed (minimatch : String → String → Bool) (filename : String)
    (allowedPaths denyPaths : List String) : Bool :=
  if denyPaths.any (fun pattern => minimatch filename pattern) then
    false
  else
    allowedPaths.any (fun pattern => minimatch filename pattern)

-- ───────────────────────────────────────────────────────────────────────────
-- classifyFiles (automerge.ts lines 101-149)
-- ───────────────────────────────────────────────────────────────────────────

/-- The accumulation loop computing `totalChangedLines` (automerge.ts
lines 119-122). -/
def totalChangedLines (files : List PRFile) : Nat :=
  files.foldl (fun acc file => acc + (file.additions + file.deletions)) 0

/-- The per-file path-rules loop of `classifyFiles` (automerge.ts
lines 132-146): returns the first failure reason, or `none` when every file
passes.  The guard `p != ""` renders the JS truthiness test
`file.previous_filename && ...`. -/
def pathRulesViolation (minimatch : String → String → Bool)
    (allowedPaths denyPaths : List String) : List PRFile → Option String
  | [] => none
  | file :: rest =>
    if !(isFileAllowed minimatch file.filename allowedPaths denyPaths) then
      some ("file not allowed: " ++ file.filename)
    else
      match file.previous_filename with
      | some p =>
        if p != "" && !(isFileAllowed minimatch p allowedPaths denyPaths) then
          some ("file not allowed: " ++ p ++ " (renamed to " ++ file.filename ++ ")")
        else
          pathRulesViolation minimatch allowedPaths denyPaths rest
      | none => pathRulesViolation minimatch allowedPaths denyPaths rest

/-- The function `classifyFiles(files, config)` (automerge.ts lines 101-149). -/
def classifyFiles (minimatch : String → String → Bool) (files : List PRFile)
    (config : AutomergeConfig) : ClassifyResult :=
  if files.length = 0 then
    { eligible := false, reason := "no files changed" }
  else if files.length > config.maxFiles then
    { eligible := false,
      reason := "too many files: " ++ toString files.length ++ " > "
        ++ toString config.maxFiles }
  else if totalChangedLines files > config.maxChangedLines then
    { eligible := false,
      reason := "too many changed lines: " ++ toString (totalChangedLines files)
        ++ " > " ++ toString config.maxChangedLines }
  else
    match pathRulesViolation minimatch config.allowedPaths config.denyPaths files with
    | some reason => { eligible := false, reason := reason }
    | none => { eligible := true, reason := "all file checks passed" }

-- ───────────────────────────────────────────────────────────────────────────
-- Spec-side predicates for the classifier claims
-- ───────────────────────────────────────────────────────────────────────────

/-- Spec-side: a file violates the per-file path rules when its current name
fails `isFileAllowed`, or it is a renamed file (it carries a non-empty
previous path) whose previous name fails `isFileAllowed`. -/
def fileFailsPath (minimatch : String → String → Bool)
    (allowedPaths denyPaths : List String) (file : PRFile) : Bool :=
  !(isFileAllowed minimatch file.filename allowedPaths denyPaths) ||
    (match file.previous_filename with
     | some p => p != "" && !(isFileAllowed minimatch p allowedPaths denyPaths)
     | none => false)

/-- Spec-side: the reason message the spec prescribes for a file that
violates the path rules (current name first, else the rename case). -/
def pathReasonFor (minimatch : String → String → Bool)
    (allowedPaths denyPaths : List String) (file : PRFile) : String :=
  if !(isFileAllowed minimatch file.filename allowedPaths denyPaths) then
    "file not allowed: " ++ file.filename
  else
    match file.previous_filename with
    | some p => "file not allowed: " ++ p ++ " (renamed to " ++ file.filename ++ ")"
    | none => ""

/-- Spec-side total size of a diff: the sum over all files of
additions + deletions. -/
def specTotalChanged (files : List PRFile) : Nat :=
  (files.map (fun file => file.additions + file.deletions)).sum

-- ───────────────────────────────────────────────────────────────────────────
-- Helper lemmas about the classifier
-- ───────────────────────────────────────────────────────────────────────────

theorem totalChangedLines_eq_sum (files : List PRFile) :
    totalChangedLines files = specTotalChanged files := by
  have aux : ∀ (l : List PRFile) (n : Nat),
      l.foldl (fun acc file => acc + (file.additions + file.deletions)) n
        = n + specTotalChanged l := by
    intro l
    induction l with
    | nil => intro n; simp [specTotalChanged]
    | cons f fs ih =>
      intro n
      simp only [List.foldl_cons, ih, specTotalChanged, List.map_cons, List.sum_cons]
      omega
  simpa [totalChangedLines] using aux files 0

theorem pathRulesViolation_eq_none_iff (minimatch : String → String → Bool)
    (allowedPaths denyPaths : List String) (files : List PRFile) :
    pathRulesViolation minimatch allowedPaths denyPaths files = none ↔
      ∀ f ∈ files, fileFailsPath minimatch allowedPaths denyPaths f = false := by
  induction files with
  | nil => simp [pathRulesViolation]
  | cons f fs ih =>
    unfold pathRulesViolation
    rcases hall : isFileAllowed minimatch f.filename allowedPaths denyPaths with _ | _
    · simp [hall, fileFailsPath]
    · rcases hprev : f.previous_filename with _ | p
      · simp only [hall, Bool.not_true, Bool.false_eq_true, if_false, hprev, ih]
        constructor
        · intro h g hg
          rcases List.mem_cons.mp hg with hg | hg
          · subst hg; simp [fileFailsPath, hall, hprev]
          · exact h g hg
        · intro h g hg; exact h g (List.mem_cons_of_mem _ hg)
      · rcases hpf : (p != "" && !(isFileAllowed minimatch p allowedPaths denyPaths)) with _ | _
        · simp only [hall, Bool.not_true, Bool.false_eq_true, if_false, hprev, hpf,
            Bool.false_eq_true, if_false, ih]
          constructor
          · intro h g hg
            rcases List.mem_cons.mp hg with hg | hg
            · subst hg; simp [fileFailsPath, hall, hprev, hpf]
            · exact h g hg
          · intro h g hg; exact h g (List.mem_cons_of_mem _ hg)
        · simp only [hall, Bool.not_true, Bool.false_eq_true, if_false, hprev, hpf, if_true]
          constructor
          · intro h; cases h
          · intro h
            have := h f (List.mem_cons_self _ _)
            simp [fileFailsPath, hall, hprev, hpf] at this

theorem pathRulesViolation_first (minimatch : String → String → Bool)
    (allowedPaths denyPaths : List String) (pre : List PRFile) (f : PRFile)
    (post : List PRFile)
    (hpre : ∀ g ∈ pre, fileFailsPath minimatch allowedPaths denyPaths g = false)
    (hf : fileFailsPath minimatch allowedPaths denyPaths f = true) :
    pathRulesViolation minimatch allowedPaths denyPaths (pre ++ f :: post)
      = some (pathReasonFor minimatch allowedPaths denyPaths f) := by
  induction pre with
  | nil =>
    simp only [List.nil_append]
    unfold pathRulesViolation
    rcases hall : isFileAllowed minimatch f.filename allowedPaths denyPaths with _ | _
    · simp [hall, pathReasonFor]
    · rcases hprev : f.previous_filename with _ | p
      · simp [fileFailsPath, hall, hprev] at hf
      · rcases hpf : (p != "" && !(isFileAllowed minimatch p allowedPaths denyPaths)) with _ | _
        · have h2 : (p != "" && !(isFileAllowed minimatch p allowedPaths denyPaths)) = true := by
            simp only [fileFailsPath, hall, hprev, Bool.not_true, Bool.false_or] at hf
            exact hf
          rw [hpf] at h2
          cases h2
        · simp [hall, hprev, hpf, pathReasonFor]
  | cons g pre ih =>
    have hg := hpre g (List.mem_cons_self _ _)
    have hpre2 : ∀ x ∈ pre, fileFailsPath minimatch allowedPaths denyPaths x = false :=
      fun x hx => hpre x (List.mem_cons_of_mem _ hx)
    simp only [List.cons_append]
    unfold pathRulesViolation
    rcases hall : isFileAllowed minimatch g.filename allowedPaths denyPaths with _ | _
    · simp [fileFailsPath, hall] at hg
    · rcases hprev : g.previous_filename with _ | p
      · simpa [hall, hprev] using ih hpre2
      · rcases hpf : (p != "" && !(isFileAllowed minimatch p allowedPaths denyPaths)) with _ | _
        · simpa [hall, hprev, hpf] using ih hpre2
        · have h2 : (p != "" && !(isFileAllowed minimatch p allowedPaths denyPaths)) = false := by
            simp only [fileFailsPath, hall, hprev, Bool.not_true, Bool.false_or] at hg
            exact hg
          rw [hpf] at h2
          cases h2

-- ───────────────────────────────────────────────────────────────────────────
-- Claim C6: isFileAllowed characterization
-- ───────────────────────────────────────────────────────────────────────────

/-- C6: `isFileAllowed(filename, allowedPaths, denyPaths)` returns true iff no
deny pattern matches the filename and at least one allow pattern matches it;
a file matching both an allow and a deny pattern is rejected, an empty allow
list allows no file, and an empty deny list denies none. -/
theorem isFileAllowed_deny_first_characterization
    (minimatch : String → String → Bool) (filename : String)
    (allowedPaths denyPaths : List String) :
    (isFileAllowed minimatch filename allowedPaths denyPaths = true ↔
      (∀ p ∈ denyPaths, minimatch filename p = false) ∧
        (∃ p ∈ allowedPaths, minimatch filename p = true))
    ∧ ((∃ p ∈ denyPaths, minimatch filename p = true) →
        isFileAllowed minimatch filename allowedPaths denyPaths = false)
    ∧ isFileAllowed minimatch filename [] denyPaths = false
    ∧ isFileAllowed minimatch filename allowedPaths []
        = allowedPaths.any (fun p => minimatch filename p) := by
  refine ⟨?_, ?_, ?_, ?_⟩
  · unfold isFileAllowed
    rcases hd : denyPaths.any (fun pattern => minimatch filename pattern) with _ | _
    · rw [List.any_eq_false] at hd
      simp only [Bool.false_eq_true, if_false, List.any_eq_true]
      constructor
      · intro h
        exact ⟨fun p hp => by simpa using hd p hp, h⟩
      · intro h; exact h.2
    · rw [List.any_eq_true] at hd
      simp only [if_true, Bool.false_eq_true, false_iff, not_and]
      intro hnone
      obtain ⟨p, hp, hm⟩ := hd
      have := hnone p hp
      rw [hm] at this
      cases this
  · intro h
    obtain ⟨p, hp, hm⟩ := h
    have hd : denyPaths.any (fun pattern => minimatch filename pattern) = true :=
      List.any_eq_true.mpr ⟨p, hp, hm⟩
    simp [isFileAllowed, hd]
  · simp [isFileAllowed]
  · simp [isFileAllowed]

/-- Witness for C6 at the test-suite inputs: a file matching both an allow
and a deny pattern (with an exact-match glob model) is rejected. -/
theorem isFileAllowed_deny_first_characterization_witness :
    isFileAllowed (fun fn pat => fn == pat) "README.md" ["README.md"] ["README.md"] = false := by
  exact (isFileAllowed_deny_first_characterization (fun fn pat => fn == pat)
    "README.md" ["README.md"] ["README.md"]).2.1 ⟨"README.md", by decide, by decide⟩

-- ───────────────────────────────────────────────────────────────────────────
-- Claim C1: classifyFiles characterization
-- ───────────────────────────────────────────────────────────────────────────

/-- C1: `classifyFiles` is ineligible iff the list is empty, the file count
exceeds `maxFiles`, the total of additions + deletions exceeds
`maxChangedLines`, or some file (or, for a renamed file, its non-empty
previous path) fails `isFileAllowed`; and the reason reports the first
violated condition in that fixed order (for the path rules, the first
offending file in list order), even when several conditions fail. -/
theorem classifyFiles_first_violation_characterization
    (minimatch : String → String → Bool) (files : List PRFile)
    (config : AutomergeConfig) :
    ((classifyFiles minimatch files config).eligible = false ↔
      (files = [] ∨ files.length > config.maxFiles ∨
        specTotalChanged files > config.maxChangedLines ∨
        ∃ f ∈ files, fileFailsPath minimatch config.allowedPaths config.denyPaths f = true))
    ∧ (files = [] →
        classifyFiles minimatch files config = ⟨false, "no files changed"⟩)
    ∧ (files ≠ [] → files.length > config.maxFiles →
        classifyFiles minimatch files config = ⟨false,
          "too many files: " ++ toString files.length ++ " > "
            ++ toString config.maxFiles⟩)
    ∧ (files ≠ [] → files.length ≤ config.maxFiles →
        specTotalChanged files > config.maxChangedLines →
        classifyFiles minimatch files config = ⟨false,
          "too many changed lines: " ++ toString (specTotalChanged files) ++ " > "
            ++ toString config.maxChangedLines⟩)
    ∧ (files.length ≤ config.maxFiles →
        specTotalChanged files ≤ config.maxChangedLines →
        ∀ pre f post, files = pre ++ f :: post →
          (∀ g ∈ pre, fileFailsPath minimatch config.allowedPaths config.denyPaths g = false) →
          fileFailsPath minimatch config.allowedPaths config.denyPaths f = true →
          classifyFiles minimatch files config =
            ⟨false, pathReasonFor minimatch config.allowedPaths config.denyPaths f⟩)
    ∧ (files ≠ [] → files.length ≤ config.maxFiles →
        specTotalChanged files ≤ config.maxChangedLines →
        (∀ f ∈ files, fileFailsPath minimatch config.allowedPaths config.denyPaths f = false) →
        classifyFiles minimatch files config = ⟨true, "all file checks passed"⟩) := by
  have hTot := totalChangedLines_eq_sum files
  refine ⟨?_, ?_, ?_, ?_, ?_, ?_⟩
  · by_cases h0 : files.length = 0
    · have hnil : files = [] := List.length_eq_zero.mp h0
      subst hnil
      exact iff_of_true (by simp [classifyFiles]) (Or.inl rfl)
    · have hne : files ≠ [] := by
        intro h; rw [h] at h0; exact h0 rfl
      by_cases h1 : files.length > config.maxFiles
      · exact iff_of_true (by simp [classifyFiles, h0, h1]) (Or.inr (Or.inl h1))
      · by_cases h2 : specTotalChanged files > config.maxChangedLines
        · exact iff_of_true (by simp [classifyFiles, h0, h1, hTot, h2])
            (Or.inr (Or.inr (Or.inl h2)))
        · rcases hviol : pathRulesViolation minimatch config.allowedPaths
              config.denyPaths files with _ | r
          · have hall := (pathRulesViolation_eq_none_iff minimatch
              config.allowedPaths config.denyPaths files).mp hviol
            refine iff_of_false ?_ ?_
            · simp [classifyFiles, h0, h1, hTot, h2, hviol]
            · rintro (h | h | h | ⟨f, hf, hfail⟩)
              · exact hne h
              · exact h1 h
              · exact h2 h
              · rw [hall f hf] at hfail; cases hfail
          · have hnotall : ¬ ∀ f ∈ files,
                fileFailsPath minimatch config.allowedPaths config.denyPaths f = false := by
              intro hall
              rw [(pathRulesViolation_eq_none_iff minimatch config.allowedPaths
                config.denyPaths files).mpr hall] at hviol
              cases hviol
            push_neg at hnotall
            obtain ⟨f, hf, hne'⟩ := hnotall
            have hfail : fileFailsPath minimatch config.allowedPaths config.denyPaths f = true := by
              rcases hb : fileFailsPath minimatch config.allowedPaths config.denyPaths f with _ | _
              · exact absurd hb hne'
              · rfl
            exact iff_of_true (by simp [classifyFiles, h0, h1, hTot, h2, hviol])
              (Or.inr (Or.inr (Or.inr ⟨f, hf, hfail⟩)))
  · intro h; subst h; simp [classifyFiles]
  · intro hne h1
    have h0 : ¬ files.length = 0 := by
      intro h; exact hne (List.length_eq_zero.mp h)
    simp [classifyFiles, h0, h1]
  · intro hne hle h2
    have h0 : ¬ files.length = 0 := by
      intro h; exact hne (List.length_eq_zero.mp h)
    have h1 : ¬ files.length > config.maxFiles := not_lt.mpr hle
    simp [classifyFiles, h0, h1, hTot, h2]
  · intro hle hle2 pre f post heq hpre hf
    have h0 : ¬ files.length = 0 := by
      intro h
      rw [List.length_eq_zero.mp h] at heq
      exact List.cons_ne_nil f post (List.append_eq_nil.mp heq.symm).2
    have h1 : ¬ files.length > config.maxFiles := not_lt.mpr hle
    have h2 : ¬ specTotalChanged files > config.maxChangedLines := not_lt.mpr hle2
    have hviol : pathRulesViolation minimatch config.allowedPaths config.denyPaths files
        = some (pathReasonFor minimatch config.allowedPaths config.denyPaths f) := by
      rw [heq]
      exact pathRulesViolation_first minimatch config.allowedPaths config.denyPaths
        pre f post hpre hf
    simp [classifyFiles, h0, h1, hTot, h2, hviol]
  · intro hne hle hle2 hall
    have h0 : ¬ files.length = 0 := by
      intro h; exact hne (List.length_eq_zero.mp h)
    have h1 : ¬ files.length > config.maxFiles := not_lt.mpr hle
    have h2 : ¬ specTotalChanged files > config.maxChangedLines := not_lt.mpr hle2
    have hviol := (pathRulesViolation_eq_none_iff minimatch config.allowedPaths
      config.denyPaths files).mpr hall
    simp [classifyFiles, h0, h1, hTot, h2, hviol]

/-- Witness for C1 at a concrete diff (exact-match glob model): the second
file violates the path rules while the size checks pass, so the reported
reason names that file. -/
theorem classifyFiles_first_violation_characterization_witness :
    classifyFiles (fun fn pat => fn == pat)
      [⟨"README.md", 5, 0, 5, "modified", none⟩,
       ⟨"src/index.ts", 5, 0, 5, "modified", none⟩]
      ⟨true, ["README.md"], [], 5, 80, 2, true⟩
      = ⟨false, "file not allowed: src/index.ts"⟩ := by
  have h := (classifyFiles_first_violation_characterization (fun fn pat => fn == pat)
      [⟨"README.md", 5, 0, 5, "modified", none⟩,
       ⟨"src/index.ts", 5, 0, 5, "modified", none⟩]
      ⟨true, ["README.md"], [], 5, 80, 2, true⟩).2.2.2.2.1
      (by decide) (by decide)
      [⟨"README.md", 5, 0, 5, "modified", none⟩]
      ⟨"src/index.ts", 5, 0, 5, "modified", none⟩ [] rfl
      (by decide) (by decide)
  rw [h]
  rfl

-- ───────────────────────────────────────────────────────────────────────────
-- evaluateAutomerge (automerge.ts lines 167-231)
-- ───────────────────────────────────────────────────────────────────────────

/-- One remote call on the PR-operations client, as observed by the
evaluation of a single PR.  `ciSignal sha` stands for the CI-Signal
Aggregator invocation `isCIPassing(prs, ref, sha)` (its two underlying
queries `getCheckRunsForRef` / `getCombinedStatus`; the implementation of
`isCIPassing` itself lives in merge-readiness.ts, which is not among the
provided sources, so the aggregator is modelled from the spec as a single
boolean-valued query on the head SHA). -/
inductive RemoteCall where
  | getLabels
  | listFiles
  | getApproverLogins
  | getPR
  | ciSignal (sha : String)
  | addLabels (labels : List String)
  | removeLabel (label : String)
deriving DecidableEq, Repr

/-- Oracle results for the remote PR-operations client: what each remote
call would return (or the error it would throw) during one evaluation. -/
structure PROps where
  getLabelsR : Except String (List String)
  listFilesR : Except String (List PRFile)
  getApproverLoginsR : Except String (List String)
  getPRHeadSha : Except String String
  ciPassingR : Except String Bool

/-- The `AutomergeResult` outcome type from automerge.ts. -/
inductive AutomergeResult where
  | skipped (reason : String)
  | labeled
  | unlabeled (reason : String)
  | noop (labeled : Bool)
deriving DecidableEq, Repr

/-- The `AutomergeParams` record from automerge.ts (the `prs` client is passed
separately as the oracle record; `ref` and `log` carry no decision-relevant
data and are omitted). -/
structure AutomergeParams where
  config : Option AutomergeConfig
  trustedReviewers : List String
  headSha : Option String
  currentLabels : Option (List String)

/-- The trusted-approval count of automerge.ts line 201:
`trustedReviewers.filter(r => approvers.has(r)).length`.  The JS `Set` of
approver logins is modelled by its list of distinct elements. -/
def trustedApprovalCount (trustedReviewers approvers : List String) : Nat :=
  (trustedReviewers.filter (fun r => approvers.contains r)).length

/-- The `removeIfLabeled` helper of automerge.ts lines 182-189, returning
the calls it makes. -/
def removeIfLabeledStep (hasAutomerge : Bool) (AUTOMERGE reason : String) :
    Except String AutomergeResult × List RemoteCall :=
  if hasAutomerge then
    (Except.ok (AutomergeResult.unlabeled reason), [RemoteCall.removeLabel AUTOMERGE])
  else
    (Except.ok (AutomergeResult.noop false), [])

/-- The final add-label step of automerge.ts lines 223-230. -/
def finishStep (hasAutomerge : Bool) (AUTOMERGE : String) :
    Except String AutomergeResult × List RemoteCall :=
  if !hasAutomerge then
    (Except.ok AutomergeResult.labeled, [RemoteCall.addLabels [AUTOMERGE]])
  else
    (Except.ok (AutomergeResult.noop true), [])

/-- Step 4 of `evaluateAutomerge` (automerge.ts lines 210-221): resolve the
head SHA (supplied value or PR fetch), query the CI signal, then branch. -/
def ciStage (prs : PROps) (headShaParam : Option String) (hasAutomerge : Bool)
    (AUTOMERGE : String) : Except String AutomergeResult × List RemoteCall :=
  let shaFetch : Except String String × List RemoteCall :=
    match headShaParam with
    | some s => (Except.ok s, [])
    | none =>
      match prs.getPRHeadSha with
      | Except.error e => (Except.error e, [RemoteCall.getPR])
      | Except.ok s => (Except.ok s, [RemoteCall.getPR])
  match shaFetch with
  | (Except.error e, t) => (Except.error e, t)
  | (Except.ok sha, t) =>
    match prs.ciPassingR with
    | Except.error e => (Except.error e, t ++ [RemoteCall.ciSignal sha])
    | Except.ok ciPassing =>
      if !ciPassing then
        let step := removeIfLabeledStep hasAutomerge AUTOMERGE "CI not passing"
        (step.1, t ++ [RemoteCall.ciSignal sha] ++ step.2)
      else
        let step := finishStep hasAutomerge AUTOMERGE
        (step.1, t ++ [RemoteCall.ciSignal sha] ++ step.2)

/-- Step 3 of `evaluateAutomerge` (automerge.ts lines 199-207): fetch the
approver logins, count trusted approvals, then branch. -/
def approvalsStage (prs : PROps) (config : AutomergeConfig)
    (trustedReviewers : List String) (headShaParam : Option String)
    (hasAutomerge : Bool) (AUTOMERGE : String) :
    Except String AutomergeResult × List RemoteCall :=
  match prs.getApproverLoginsR with
  | Except.error e => (Except.error e, [RemoteCall.getApproverLogins])
  | Except.ok approvers =>
    let count := trustedApprovalCount trustedReviewers approvers
    if count < config.minApprovals then
      let step := removeIfLabeledStep hasAutomerge AUTOMERGE
        ("insufficient approvals: " ++ toString count ++ "/" ++ toString config.minApprovals)
      (step.1, [RemoteCall.getApproverLogins] ++ step.2)
    else if config.requireChecks then
      let step := ciStage prs headShaParam hasAutomerge AUTOMERGE
      (step.1, [RemoteCall.getApproverLogins] ++ step.2)
    else
      let step := finishStep hasAutomerge AUTOMERGE
      (step.1, [RemoteCall.getApproverLogins] ++ step.2)

/-- Step 2 of `evaluateAutomerge` (automerge.ts lines 191-197): fetch the
file list, classify it, then branch. -/
def filesStage (minimatch : String → String → Bool) (prs : PROps)
    (config : AutomergeConfig) (trustedReviewers : List String)
    (headShaParam : Option String) (hasAutomerge : Bool) (AUTOMERGE : String) :
    Except String AutomergeResult × List RemoteCall :=
  match prs.listFilesR with
  | Except.error e => (Except.error e, [RemoteCall.listFiles])
  | Except.ok files =>
    let classification := classifyFiles minimatch files config
    if !classification.eligible then
      let step := removeIfLabeledStep hasAutomerge AUTOMERGE classification.reason
      (step.1, [RemoteCall.listFiles] ++ step.2)
    else
      let step := approvalsStage prs config trustedReviewers headShaParam
        hasAutomerge AUTOMERGE
      (step.1, [RemoteCall.listFiles] ++ step.2)

/-- The function `evaluateAutomerge(params)` (automerge.ts lines 167-231).  Returns the
result (or the propagated error) together with the ordered trace of remote
calls performed.  `isLabelMatch l lbl` stands for the imported helper
`isLabelMatch(l, LABELS.AUTOMERGE)` and `AUTOMERGE` for the label constant
`LABELS.AUTOMERGE` (both external collaborators). -/
def evaluateAutomerge (minimatch isLabelMatch : String → String → Bool)
    (AUTOMERGE : String) (prs : PROps) (params : AutomergeParams) :
    Except String AutomergeResult × List RemoteCall :=
  match params.config with
  | none => (Except.ok (AutomergeResult.skipped "feature disabled"), [])
  | some config =>
    match params.currentLabels with
    | some labels =>
      let hasAutomerge := labels.any (fun l => isLabelMatch l AUTOMERGE)
      filesStage minimatch prs config params.trustedReviewers params.headSha
        hasAutomerge AUTOMERGE
    | none =>
      match prs.getLabelsR with
      | Except.error e => (Except.error e, [RemoteCall.getLabels])
      | Except.ok labels =>
        let hasAutomerge := labels.any (fun l => isLabelMatch l AUTOMERGE)
        let step := filesStage minimatch prs config params.trustedReviewers
          params.headSha hasAutomerge AUTOMERGE
        (step.1, [RemoteCall.getLabels] ++ step.2)

-- ───────────────────────────────────────────────────────────────────────────
-- Trace predicates and result helpers
-- ───────────────────────────────────────────────────────────────────────────

/-- A remote call that mutates the label state. -/
def isMutation : RemoteCall → Bool
  | RemoteCall.addLabels _ => true
  | RemoteCall.removeLabel _ => true
  | _ => false

/-- The approver-logins fetch (the Approval Aggregator input). -/
def isApproverFetch : RemoteCall → Bool
  | RemoteCall.getApproverLogins => true
  | _ => false

/-- The PR fetch used to resolve the head SHA. -/
def isHeadShaFetch : RemoteCall → Bool
  | RemoteCall.getPR => true
  | _ => false

/-- A CI-Signal Aggregator query. -/
def isCIQuery : RemoteCall → Bool
  | RemoteCall.ciSignal _ => true
  | _ => false

/-- Whether an evaluation outcome leaves the automerge label present. -/
def resultLeavesLabeled : AutomergeResult → Bool
  | AutomergeResult.labeled => true
  | AutomergeResult.noop b => b
  | AutomergeResult.unlabeled _ => false
  | AutomergeResult.skipped _ => false

/-- Whether an evaluation outcome performed a label mutation. -/
def resultMutates : AutomergeResult → Bool
  | AutomergeResult.labeled => true
  | AutomergeResult.unlabeled _ => true
  | AutomergeResult.noop _ => false
  | AutomergeResult.skipped _ => false

-- ───────────────────────────────────────────────────────────────────────────
-- Spec-side verdict of one evaluation (all fetches succeeding)
-- ───────────────────────────────────────────────────────────────────────────

/-- Spec-side: the failure reason of the short-circuit pipeline (file
classification, then trusted approvals, then CI when required), or `none`
when every condition passes. -/
def automergeVerdict (minimatch : String → String → Bool)
    (config : AutomergeConfig) (files : List PRFile)
    (trustedReviewers approvers : List String) (ciPassing : Bool) :
    Option String :=
  if !(classifyFiles minimatch files config).eligible then
    some (classifyFiles minimatch files config).reason
  else if trustedApprovalCount trustedReviewers approvers < config.minApprovals then
    some ("insufficient approvals: "
      ++ toString (trustedApprovalCount trustedReviewers approvers)
      ++ "/" ++ toString config.minApprovals)
  else if config.requireChecks && !ciPassing then
    some "CI not passing"
  else
    none

/-- Spec-side: the label transition an evaluation performs given the
pipeline verdict and the current label state. -/
def resultOf : Option String → Bool → AutomergeResult
  | some r, true => AutomergeResult.unlabeled r
  | some _, false => AutomergeResult.noop false
  | none, true => AutomergeResult.noop true
  | none, false => AutomergeResult.labeled

theorem resultLeavesLabeled_resultOf (v : Option String) (b : Bool) :
    resultLeavesLabeled (resultOf v b) = v.isNone := by
  rcases v with _ | r <;> rcases b with _ | _ <;> rfl

theorem resultOf_stable (v : Option String) :
    resultOf v v.isNone = AutomergeResult.noop v.isNone := by
  rcases v with _ | r <;> rfl

theorem resultMutates_stable (v : Option String) :
    resultMutates (resultOf v v.isNone) = false := by
  rcases v with _ | r <;> rfl

/-- Characterization of a fully successful evaluation: with a non-null
config, no pre-fetched labels, and every oracle succeeding, the result is
`resultOf` of the pipeline verdict and the current label state, and the
trace contains a mutation exactly when the result is a transition. -/
theorem evaluateAutomerge_ok_spec (minimatch isLabelMatch : String → String → Bool)
    (AUTOMERGE : String) (prs : PROps) (params : AutomergeParams)
    (config : AutomergeConfig) (labels : List String) (files : List PRFile)
    (approvers : List String) (sha : String) (ci : Bool)
    (hc : params.config = some config) (hcl : params.currentLabels = none)
    (hL : prs.getLabelsR = Except.ok labels)
    (hF : prs.listFilesR = Except.ok files)
    (hA : prs.getApproverLoginsR = Except.ok approvers)
    (hS : prs.getPRHeadSha = Except.ok sha)
    (hC : prs.ciPassingR = Except.ok ci) :
    (evaluateAutomerge minimatch isLabelMatch AUTOMERGE prs params).1 =
      Except.ok (resultOf
        (automergeVerdict minimatch config files params.trustedReviewers approvers ci)
        (labels.any (fun l => isLabelMatch l AUTOMERGE)))
    ∧ (evaluateAutomerge minimatch isLabelMatch AUTOMERGE prs params).2.any isMutation =
        resultMutates (resultOf
          (automergeVerdict minimatch config files params.trustedReviewers approvers ci)
          (labels.any (fun l => isLabelMatch l AUTOMERGE))) := by
  unfold evaluateAutomerge
  rw [hc, hcl, hL]
  unfold filesStage
  rw [hF]
  unfold approvalsStage
  rw [hA]
  unfold automergeVerdict
  by_cases hel : (classifyFiles minimatch files config).eligible
  · by_cases hcnt : trustedApprovalCount params.trustedReviewers approvers
      < config.minApprovals
    · rcases hlab : labels.any (fun l => isLabelMatch l AUTOMERGE) with _ | _ <;>
        simp [hel, hcnt, removeIfLabeledStep, resultOf, resultMutates, isMutation, hlab]
    · rcases hrc : config.requireChecks with _ | _
      · rcases hlab : labels.any (fun l => isLabelMatch l AUTOMERGE) with _ | _ <;>
          simp [hel, hcnt, hrc, finishStep, resultOf, resultMutates, isMutation, hlab]
      · unfold ciStage
        rcases hsp : params.headSha with _ | s
        · rw [hS]
          rcases hci : ci with _ | _ <;>
            rcases hlab : labels.any (fun l => isLabelMatch l AUTOMERGE) with _ | _ <;>
              simp [hel, hcnt, hrc, hC, hci, hlab, removeIfLabeledStep, finishStep,
                resultOf, resultMutates, isMutation]
        · rcases hci : ci with _ | _ <;>
            rcases hlab : labels.any (fun l => isLabelMatch l AUTOMERGE) with _ | _ <;>
              simp [hel, hcnt, hrc, hC, hci, hlab, removeIfLabeledStep, finishStep,
                resultOf, resultMutates, isMutation]
  · rcases hlab : labels.any (fun l => isLabelMatch l AUTOMERGE) with _ | _ <;>
      simp [hel, removeIfLabeledStep, resultOf, resultMutates, isMutation, hlab]

-- ───────────────────────────────────────────────────────────────────────────
-- Trace composition helpers
-- ───────────────────────────────────────────────────────────────────────────

theorem any_false_append {p t : List RemoteCall} {f : RemoteCall → Bool}
    (hp : p.any f = false) (ht : t.any f = false) : (p ++ t).any f = false := by
  simp [List.any_append, hp, ht]

theorem dropLast_any_false_append {p t : List RemoteCall} {f : RemoteCall → Bool}
    (hp : p.any f = false) (ht : t.dropLast.any f = false) :
    (p ++ t).dropLast.any f = false := by
  rcases t with _ | ⟨x, xs⟩
  · rw [List.append_nil]
    rw [List.any_eq_false] at hp ⊢
    intro a ha
    exact hp a ((List.dropLast_sublist p).subset ha)
  · rw [List.dropLast_append_cons]
    simp only [List.any_append, hp, Bool.false_or]
    exact ht

theorem removeIfLabeledStep_dropLast (h : Bool) (A r : String) :
    (removeIfLabeledStep h A r).2.dropLast.any isMutation = false := by
  cases h <;> simp [removeIfLabeledStep]

theorem removeIfLabeledStep_no_error (h : Bool) (A r : String) (e : String) :
    (removeIfLabeledStep h A r).1 ≠ Except.error e := by
  cases h <;> simp [removeIfLabeledStep]

theorem removeIfLabeledStep_no_fetch (h : Bool) (A r : String) :
    (removeIfLabeledStep h A r).2.any isApproverFetch = false
    ∧ (removeIfLabeledStep h A r).2.any isHeadShaFetch = false
    ∧ (removeIfLabeledStep h A r).2.any isCIQuery = false := by
  cases h <;> simp [removeIfLabeledStep, isApproverFetch, isHeadShaFetch, isCIQuery]

theorem finishStep_dropLast (h : Bool) (A : String) :
    (finishStep h A).2.dropLast.any isMutation = false := by
  cases h <;> simp [finishStep]

theorem finishStep_no_error (h : Bool) (A : String) (e : String) :
    (finishStep h A).1 ≠ Except.error e := by
  cases h <;> simp [finishStep]

theorem ciStage_trace (prs : PROps) (hsp : Option String) (h : Bool) (A : String) :
    ((ciStage prs hsp h A).2.dropLast.any isMutation = false)
    ∧ (∀ e, (ciStage prs hsp h A).1 = Except.error e →
        (ciStage prs hsp h A).2.any isMutation = false) := by
  unfold ciStage
  rcases hsp with _ | s
  · rcases prs.getPRHeadSha with e | sha
    · simp [isMutation]
    · rcases prs.ciPassingR with e | ci
      · simp [isMutation]
      · rcases ci with _ | _
        · simp only [Bool.not_false, if_true]
          refine ⟨dropLast_any_false_append (by simp [isMutation])
            (removeIfLabeledStep_dropLast h A "CI not passing"), ?_⟩
          intro e he
          exact absurd he (removeIfLabeledStep_no_error h A "CI not passing" e)
        · simp only [Bool.not_true, Bool.false_eq_true, if_false]
          refine ⟨dropLast_any_false_append (by simp [isMutation])
            (finishStep_dropLast h A), ?_⟩
          intro e he
          exact absurd he (finishStep_no_error h A e)
  · rcases prs.ciPassingR with e | ci
    · simp [isMutation]
    · rcases ci with _ | _
      · simp only [Bool.not_false, if_true]
        refine ⟨dropLast_any_false_append (by simp [isMutation])
          (removeIfLabeledStep_dropLast h A "CI not passing"), ?_⟩
        intro e he
        exact absurd he (removeIfLabeledStep_no_error h A "CI not passing" e)
      · simp only [Bool.not_true, Bool.false_eq_true, if_false]
        refine ⟨dropLast_any_false_append (by simp [isMutation])
          (finishStep_dropLast h A), ?_⟩
        intro e he
        exact absurd he (finishStep_no_error h A e)

theorem approvalsStage_trace (prs : PROps) (config : AutomergeConfig)
    (trusted : List String) (hsp : Option String) (h : Bool) (A : String) :
    ((approvalsStage prs config trusted hsp h A).2.dropLast.any isMutation = false)
    ∧ (∀ e, (approvalsStage prs config trusted hsp h A).1 = Except.error e →
        (approvalsStage prs config trusted hsp h A).2.any isMutation = false) := by
  unfold approvalsStage
  rcases prs.getApproverLoginsR with e | approvers
  · simp [isMutation]
  · by_cases hcnt : trustedApprovalCount trusted approvers < config.minApprovals
    · simp only [hcnt, if_true]
      refine ⟨dropLast_any_false_append (by simp [isMutation])
        (removeIfLabeledStep_dropLast h A _), ?_⟩
      intro e he
      exact absurd he (removeIfLabeledStep_no_error h A _ e)
    · rcases hrc : config.requireChecks with _ | _
      · simp only [hcnt, if_false, hrc, Bool.false_eq_true]
        refine ⟨dropLast_any_false_append (by simp [isMutation])
          (finishStep_dropLast h A), ?_⟩
        intro e he
        exact absurd he (finishStep_no_error h A e)
      · simp only [hcnt, if_false, hrc, if_true]
        obtain ⟨h1, h2⟩ := ciStage_trace prs hsp h A
        refine ⟨dropLast_any_false_append (by simp [isMutation]) h1, ?_⟩
        intro e he
        exact any_false_append (by simp [isMutation]) (h2 e he)

theorem filesStage_trace (minimatch : String → String → Bool) (prs : PROps)
    (config : AutomergeConfig) (trusted : List String) (hsp : Option String)
    (h : Bool) (A : String) :
    ((filesStage minimatch prs config trusted hsp h A).2.dropLast.any isMutation = false)
    ∧ (∀ e, (filesStage minimatch prs config trusted hsp h A).1 = Except.error e →
        (filesStage minimatch prs config trusted hsp h A).2.any isMutation = false) := by
  unfold filesStage
  rcases prs.listFilesR with e | files
  · simp [isMutation]
  · by_cases hel : (classifyFiles minimatch files config).eligible
    · simp only [hel, Bool.not_true, Bool.false_eq_true, if_false]
      obtain ⟨h1, h2⟩ := approvalsStage_trace prs config trusted hsp h A
      refine ⟨dropLast_any_false_append (by simp [isMutation]) h1, ?_⟩
      intro e he
      exact any_false_append (by simp [isMutation]) (h2 e he)
    · simp only [Bool.not_eq_true] at hel
      simp only [hel, Bool.not_false, if_true]
      refine ⟨dropLast_any_false_append (by simp [isMutation])
        (removeIfLabeledStep_dropLast h A _), ?_⟩
      intro e he
      exact absurd he (removeIfLabeledStep_no_error h A _ e)

theorem resultOf_ne_skipped (v : Option String) (b : Bool) (s : String) :
    resultOf v b ≠ AutomergeResult.skipped s := by
  rcases v with _ | r <;> rcases b with _ | _ <;> simp [resultOf]

-- ───────────────────────────────────────────────────────────────────────────
-- Claim C3: error propagation and write-after-read atomicity
-- ───────────────────────────────────────────────────────────────────────────

/-- C3: with a non-null config, any label mutation the evaluation performs
is its last remote call (the trace without its last element is
mutation-free); when the evaluation propagates an error, no label mutation
was performed at all; and an upstream fetch failure (here the file-list
fetch, with labels pre-supplied) propagates out as the result. -/
theorem evaluateAutomerge_no_partial_mutation
    (minimatch isLabelMatch : String → String → Bool) (AUTOMERGE : String)
    (prs : PROps) (params : AutomergeParams) (config : AutomergeConfig)
    (hc : params.config = some config) :
    ((evaluateAutomerge minimatch isLabelMatch AUTOMERGE prs params).2.dropLast.any
        isMutation = false)
    ∧ (∀ e, (evaluateAutomerge minimatch isLabelMatch AUTOMERGE prs params).1
          = Except.error e →
        (evaluateAutomerge minimatch isLabelMatch AUTOMERGE prs params).2.any
          isMutation = false)
    ∧ (∀ ls e, params.currentLabels = some ls →
        prs.listFilesR = Except.error e →
        (evaluateAutomerge minimatch isLabelMatch AUTOMERGE prs params).1
          = Except.error e) := by
  unfold evaluateAutomerge
  rw [hc]
  rcases hcl : params.currentLabels with _ | ls
  · rcases prs.getLabelsR with e | labels
    · refine ⟨by simp, by intro e' he'; simp [isMutation], ?_⟩
      intro ls e' h1 h2
      cases h1
    · obtain ⟨h1, h2⟩ := filesStage_trace minimatch prs config params.trustedReviewers
        params.headSha (labels.any (fun l => isLabelMatch l AUTOMERGE)) AUTOMERGE
      refine ⟨dropLast_any_false_append (by simp [isMutation]) h1, ?_, ?_⟩
      · intro e he
        exact any_false_append (by simp [isMutation]) (h2 e he)
      · intro ls e hsome hfile
        cases hsome
  · obtain ⟨h1, h2⟩ := filesStage_trace minimatch prs config params.trustedReviewers
      params.headSha (ls.any (fun l => isLabelMatch l AUTOMERGE)) AUTOMERGE
    refine ⟨h1, h2, ?_⟩
    intro ls' e hsome hfile
    unfold filesStage
    rw [hfile]

/-- Witness for C3: a failing file-list fetch propagates out of the
evaluation (the scenario of the "propagates errors from API calls" test). -/
theorem evaluateAutomerge_no_partial_mutation_witness :
    (evaluateAutomerge (fun fn pat => fn == pat) (fun l lbl => l == lbl)
      "hivemoot:automerge"
      ⟨Except.ok [], Except.error "API error", Except.ok [],
        Except.ok "abc123", Except.ok true⟩
      ⟨some ⟨true, ["README.md"], [], 5, 80, 2, true⟩, ["alice", "bob"],
        none, some []⟩).1 = Except.error "API error" := by
  exact (evaluateAutomerge_no_partial_mutation (fun fn pat => fn == pat)
    (fun l lbl => l == lbl) "hivemoot:automerge"
    ⟨Except.ok [], Except.error "API error", Except.ok [],
      Except.ok "abc123", Except.ok true⟩
    ⟨some ⟨true, ["README.md"], [], 5, 80, 2, true⟩, ["alice", "bob"],
      none, some []⟩
    ⟨true, ["README.md"], [], 5, 80, 2, true⟩ rfl).2.2 [] "API error" rfl rfl

-- ───────────────────────────────────────────────────────────────────────────
-- Claim C4: short-circuit order of the remote queries
-- ───────────────────────────────────────────────────────────────────────────

/-- C4: with a non-null config, when file classification is ineligible the
evaluation never fetches the approver logins; and when the trusted-approval
count is below `minApprovals` it never resolves the head SHA via the PR
fetch and never queries the CI signal. -/
theorem evaluateAutomerge_short_circuit
    (minimatch isLabelMatch : String → String → Bool) (AUTOMERGE : String)
    (prs : PROps) (params : AutomergeParams) (config : AutomergeConfig)
    (hc : params.config = some config) :
    (∀ files, prs.listFilesR = Except.ok files →
      (classifyFiles minimatch files config).eligible = false →
      (evaluateAutomerge minimatch isLabelMatch AUTOMERGE prs params).2.any
        isApproverFetch = false)
    ∧ (∀ approvers, prs.getApproverLoginsR = Except.ok approvers →
        trustedApprovalCount params.trustedReviewers approvers < config.minApprovals →
        (evaluateAutomerge minimatch isLabelMatch AUTOMERGE prs params).2.any
            isHeadShaFetch = false
        ∧ (evaluateAutomerge minimatch isLabelMatch AUTOMERGE prs params).2.any
            isCIQuery = false) := by
  have stage1 : ∀ hasA files, prs.listFilesR = Except.ok files →
      (classifyFiles minimatch files config).eligible = false →
      (filesStage minimatch prs config params.trustedReviewers params.headSha
        hasA AUTOMERGE).2.any isApproverFetch = false := by
    intro hasA files hF hel
    unfold filesStage
    rw [hF]
    simp only [hel, Bool.not_false, if_true]
    exact any_false_append (by simp [isApproverFetch])
      (removeIfLabeledStep_no_fetch hasA AUTOMERGE _).1
  have stage2 : ∀ hasA approvers, prs.getApproverLoginsR = Except.ok approvers →
      trustedApprovalCount params.trustedReviewers approvers < config.minApprovals →
      (filesStage minimatch prs config params.trustedReviewers params.headSha
          hasA AUTOMERGE).2.any isHeadShaFetch = false
      ∧ (filesStage minimatch prs config params.trustedReviewers params.headSha
          hasA AUTOMERGE).2.any isCIQuery = false := by
    intro hasA approvers hA hcnt
    unfold filesStage
    rcases prs.listFilesR with e | files
    · simp [isHeadShaFetch, isCIQuery]
    · by_cases hel : (classifyFiles minimatch files config).eligible
      · simp only [hel, Bool.not_true, Bool.false_eq_true, if_false]
        unfold approvalsStage
        rw [hA]
        simp only [hcnt, if_true]
        constructor
        · exact any_false_append (by simp [isHeadShaFetch])
            (any_false_append (by simp [isHeadShaFetch])
              (removeIfLabeledStep_no_fetch hasA AUTOMERGE _).2.1)
        · exact any_false_append (by simp [isCIQuery])
            (any_false_append (by simp [isCIQuery])
              (removeIfLabeledStep_no_fetch hasA AUTOMERGE _).2.2)
      · simp only [Bool.not_eq_true] at hel
        simp only [hel, Bool.not_false, if_true]
        constructor
        · exact any_false_append (by simp [isHeadShaFetch])
            (removeIfLabeledStep_no_fetch hasA AUTOMERGE _).2.1
        · exact any_false_append (by simp [isCIQuery])
            (removeIfLabeledStep_no_fetch hasA AUTOMERGE _).2.2
  unfold evaluateAutomerge
  rw [hc]
  rcases hcl : params.currentLabels with _ | ls
  · rcases prs.getLabelsR with e | labels
    · constructor
      · intro files hF hel; simp [isApproverFetch]
      · intro approvers hA hcnt
        constructor <;> simp [isHeadShaFetch, isCIQuery]
    · constructor
      · intro files hF hel
        exact any_false_append (by simp [isApproverFetch]) (stage1 _ files hF hel)
      · intro approvers hA hcnt
        obtain ⟨ha, hb⟩ := stage2 (labels.any (fun l => isLabelMatch l AUTOMERGE))
          approvers hA hcnt
        exact ⟨any_false_append (by simp [isHeadShaFetch]) ha,
          any_false_append (by simp [isCIQuery]) hb⟩
  · constructor
    · intro files hF hel
      exact stage1 _ files hF hel
    · intro approvers hA hcnt
      exact stage2 (ls.any (fun l => isLabelMatch l AUTOMERGE)) approvers hA hcnt

/-- Witness for C4: with an ineligible file (path rules fail) the trace of
the evaluation contains no approver-logins fetch. -/
theorem evaluateAutomerge_short_circuit_witness :
    (evaluateAutomerge (fun fn pat => fn == pat) (fun l lbl => l == lbl)
      "hivemoot:automerge"
      ⟨Except.ok [], Except.ok [⟨"src/main.ts", 5, 0, 5, "modified", none⟩],
        Except.ok ["alice", "bob"], Except.ok "abc123", Except.ok true⟩
      ⟨some ⟨true, ["README.md"], [], 5, 80, 2, true⟩, ["alice", "bob"],
        none, none⟩).2.any isApproverFetch = false := by
  exact (evaluateAutomerge_short_circuit (fun fn pat => fn == pat)
    (fun l lbl => l == lbl) "hivemoot:automerge"
    ⟨Except.ok [], Except.ok [⟨"src/main.ts", 5, 0, 5, "modified", none⟩],
      Except.ok ["alice", "bob"], Except.ok "abc123", Except.ok true⟩
    ⟨some ⟨true, ["README.md"], [], 5, 80, 2, true⟩, ["alice", "bob"],
      none, none⟩
    ⟨true, ["README.md"], [], 5, 80, 2, true⟩ rfl).1
    [⟨"src/main.ts", 5, 0, 5, "modified", none⟩] rfl (by decide)

-- ───────────────────────────────────────────────────────────────────────────
-- Claim C2: idempotence of the label transition
-- ───────────────────────────────────────────────────────────────────────────

/-- C2: with a non-null config and all upstream signals unchanged, a first
successful evaluation yields `labeled`, `unlabeled` or `noop` (never
`skipped`), and a second evaluation — whose fetched labels `L2` reflect
exactly the label state the first call left behind — yields
`noop` with that same label state and performs no `addLabels` or
`removeLabel` mutation. -/
theorem evaluateAutomerge_idempotent
    (minimatch isLabelMatch : String → String → Bool) (AUTOMERGE : String)
    (prs : PROps) (params : AutomergeParams) (config : AutomergeConfig)
    (L1 L2 : List String) (files : List PRFile) (approvers : List String)
    (sha : String) (ci : Bool) (r1 : AutomergeResult)
    (hc : params.config = some config) (hcl : params.currentLabels = none)
    (hL : prs.getLabelsR = Except.ok L1)
    (hF : prs.listFilesR = Except.ok files)
    (hA : prs.getApproverLoginsR = Except.ok approvers)
    (hS : prs.getPRHeadSha = Except.ok sha)
    (hC : prs.ciPassingR = Except.ok ci)
    (h1 : (evaluateAutomerge minimatch isLabelMatch AUTOMERGE prs params).1
      = Except.ok r1)
    (h2 : L2.any (fun l => isLabelMatch l AUTOMERGE) = resultLeavesLabeled r1) :
    (∀ s, r1 ≠ AutomergeResult.skipped s)
    ∧ (evaluateAutomerge minimatch isLabelMatch AUTOMERGE
        { prs with getLabelsR := Except.ok L2 } params).1
        = Except.ok (AutomergeResult.noop (resultLeavesLabeled r1))
    ∧ (evaluateAutomerge minimatch isLabelMatch AUTOMERGE
        { prs with getLabelsR := Except.ok L2 } params).2.any isMutation
        = false := by
  obtain ⟨hres1, _⟩ := evaluateAutomerge_ok_spec minimatch isLabelMatch AUTOMERGE
    prs params config L1 files approvers sha ci hc hcl hL hF hA hS hC
  rw [h1] at hres1
  have hr1 : r1 = resultOf
      (automergeVerdict minimatch config files params.trustedReviewers approvers ci)
      (L1.any (fun l => isLabelMatch l AUTOMERGE)) :=
    Except.ok.inj hres1
  have hll : resultLeavesLabeled r1 =
      (automergeVerdict minimatch config files params.trustedReviewers approvers ci).isNone := by
    rw [hr1, resultLeavesLabeled_resultOf]
  obtain ⟨hres2, hmut2⟩ := evaluateAutomerge_ok_spec minimatch isLabelMatch AUTOMERGE
    { prs with getLabelsR := Except.ok L2 } params config L2 files approvers sha ci
    hc hcl rfl hF hA hS hC
  rw [h2, hll] at hres2 hmut2
  refine ⟨?_, ?_, ?_⟩
  · intro s hs
    rw [hr1] at hs
    exact resultOf_ne_skipped _ _ s hs
  · rw [hres2, resultOf_stable, hll]
  · rw [hmut2, resultMutates_stable]

/-- Witness for C2: a fully eligible PR is labeled on the first call
(empty label list), and a second call that now sees the automerge label
returns `noop true`. -/
theorem evaluateAutomerge_idempotent_witness :
    (evaluateAutomerge (fun fn pat => fn == pat) (fun l lbl => l == lbl)
      "hivemoot:automerge"
      ⟨Except.ok ["hivemoot:automerge"],
        Except.ok [⟨"README.md", 5, 0, 5, "modified", none⟩],
        Except.ok ["alice", "bob"], Except.ok "sha123", Except.ok true⟩
      ⟨some ⟨true, ["README.md"], [], 5, 80, 2, true⟩, ["alice", "bob"],
        some "sha123", none⟩).1
      = Except.ok (AutomergeResult.noop true) := by
  have h := evaluateAutomerge_idempotent (fun fn pat => fn == pat)
    (fun l lbl => l == lbl) "hivemoot:automerge"
    ⟨Except.ok [], Except.ok [⟨"README.md", 5, 0, 5, "modified", none⟩],
      Except.ok ["alice", "bob"], Except.ok "sha123", Except.ok true⟩
    ⟨some ⟨true, ["README.md"], [], 5, 80, 2, true⟩, ["alice", "bob"],
      some "sha123", none⟩
    ⟨true, ["README.md"], [], 5, 80, 2, true⟩
    [] ["hivemoot:automerge"] [⟨"README.md", 5, 0, 5, "modified", none⟩]
    ["alice", "bob"] "sha123" true AutomergeResult.labeled
    rfl rfl rfl rfl rfl rfl rfl rfl (by decide)
  exact h.2.1

-- ───────────────────────────────────────────────────────────────────────────
-- Claim C5: trusted-approval count vs. set intersection
-- ───────────────────────────────────────────────────────────────────────────

/-- C5 counterexample: with the duplicated trusted-reviewer list
`["alice", "alice"]` and approver set `{"alice"}`, the code counts 2 while
the cardinality of the intersection of the distinct approver logins with
the distinct trusted logins is 1 — so the count is not, for every input,
the intersection cardinality. -/
theorem trustedApprovalCount_duplicate_counterexample :
    trustedApprovalCount ["alice", "alice"] ["alice"] = 2
    ∧ ((["alice"] : List String).toFinset ∩
        (["alice", "alice"] : List String).toFinset).card = 1
    ∧ trustedApprovalCount ["alice", "alice"] ["alice"]
       ≠ ((["alice"] : List String).toFinset ∩
          (["alice", "alice"] : List String).toFinset).card := by
  refine ⟨by decide, by decide, by decide⟩

/-- C5 (amended): the trusted-approval count equals the number of entries
of the trusted-reviewer list, counted with multiplicity, that are members
of the approver set; when the trusted-reviewer list has no repeated logins
it equals the cardinality of the intersection of the distinct approver
logins with the distinct trusted logins. -/
theorem trustedApprovalCount_inter_card_of_nodup
    (trusted approvers : List String) (h : trusted.Nodup) :
    trustedApprovalCount trusted approvers
      = (trusted.toFinset ∩ approvers.toFinset).card := by
  induction trusted with
  | nil => simp [trustedApprovalCount]
  | cons t ts ih =>
    obtain ⟨ht, hts⟩ := List.nodup_cons.mp h
    have ihts := ih hts
    have htX : t ∉ ts.toFinset := by
      rw [List.mem_toFinset]; exact ht
    rw [List.toFinset_cons]
    by_cases hmem : t ∈ approvers
    · have hcont : approvers.contains t = true := by
        simpa [List.elem_iff] using hmem
      have htA : t ∈ approvers.toFinset := List.mem_toFinset.mpr hmem
      rw [Finset.insert_inter_of_mem htA,
        Finset.card_insert_of_not_mem (fun hx => htX (Finset.mem_inter.mp hx).1)]
      have : trustedApprovalCount (t :: ts) approvers
          = trustedApprovalCount ts approvers + 1 := by
        simp [trustedApprovalCount, List.filter_cons, hcont, hmem]
      rw [this, ihts]
    · have hcont : approvers.contains t = false := by
        rcases hb : approvers.contains t with _ | _
        · rfl
        · exact absurd (by simpa [List.elem_iff] using hb) hmem
      have htA : t ∉ approvers.toFinset := fun hx => hmem (List.mem_toFinset.mp hx)
      rw [Finset.insert_inter_of_not_mem htA]
      have : trustedApprovalCount (t :: ts) approvers
          = trustedApprovalCount ts approvers := by
        simp [trustedApprovalCount, List.filter_cons, hcont, hmem]
      rw [this, ihts]

/-- Witness for C5 (amended) at the "only counts approvals from trusted
reviewers" test inputs: trusted `["alice", "bob"]` (no duplicates),
approvers `{"alice", "charlie"}` — exactly one trusted approval. -/
theorem trustedApprovalCount_inter_card_of_nodup_witness :
    trustedApprovalCount ["alice", "bob"] ["alice", "charlie"]
      = ((["alice", "bob"] : List String).toFinset ∩
         (["alice", "charlie"] : List String).toFinset).card
    ∧ trustedApprovalCount ["alice", "bob"] ["alice", "charlie"] = 1 := by
  exact ⟨trustedApprovalCount_inter_card_of_nodup ["alice", "bob"]
    ["alice", "charlie"] (by decide), by decide⟩

-- ───────────────────────────────────────────────────────────────────────────
-- isTransientError (transient-error module of automerge lib)
-- ───────────────────────────────────────────────────────────────────────────

/-- A JavaScript value as far as the transient-error classifier inspects it:
null, undefined, a string, a number (the tests exercise integers), a
boolean, or an object given by its property list. -/
inductive JSValue where
  | vNull
  | vUndefined
  | vStr (s : String)
  | vNum (n : Int)
  | vBool (b : Bool)
  | vObj (fields : List (String × JSValue))

/-- First-match property lookup on an object field list (JS objects have
unique keys, so first-match is exact). -/
def lookupField (fields : List (String × JSValue)) (key : String) :
    Option JSValue :=
  match fields with
  | [] => none
  | (k, v) :: rest => if k == key then some v else lookupField rest key

/-- The set `TRANSIENT_NETWORK_CODES` (the six transport-level failure codes). -/
def TRANSIENT_NETWORK_CODES : List String :=
  ["ECONNRESET", "ETIMEDOUT", "ECONNREFUSED", "ENOTFOUND", "EAI_AGAIN", "EPIPE"]

/-- Modelled from the spec: `getErrorStatus` is imported from the GitHub
client module, which is not among the provided sources.  Per the spec, it
extracts the HTTP status the error carries, or null when there is none: an
object whose `status` property is a number yields that number. -/
def getErrorStatus (error : JSValue) : Option Int :=
  match error with
  | JSValue.vObj fields =>
    match lookupField fields "status" with
    | some (JSValue.vNum n) => some n
    | _ => none
  | _ => none

/-- The function `isTransientError(error)`: return true early when the error is an
object whose `code` property is a string in `TRANSIENT_NETWORK_CODES`;
otherwise consult `getErrorStatus` and return true for 429 or any
status of at least 500. -/
def isTransientError (error : JSValue) : Bool :=
  let codeHit :=
    match error with
    | JSValue.vObj fields =>
      match lookupField fields "code" with
      | some (JSValue.vStr c) => TRANSIENT_NETWORK_CODES.contains c
      | _ => false
    | _ => false
  if codeHit then
    true
  else
    match getErrorStatus error with
    | some s => s == 429 || s ≥ 500
    | none => false

/-- Spec-side: the error is an object carrying a string `code` property
that is one of the six transient network codes. -/
def hasTransientCode (error : JSValue) : Bool :=
  match error with
  | JSValue.vObj fields =>
    match lookupField fields "code" with
    | some (JSValue.vStr c) => TRANSIENT_NETWORK_CODES.contains c
    | _ => false
  | _ => false

/-- Spec-side: the error carries an HTTP status equal to 429 or at
least 500. -/
def hasTransientStatus (error : JSValue) : Bool :=
  match getErrorStatus error with
  | some s => s == 429 || s ≥ 500
  | none => false

-- ───────────────────────────────────────────────────────────────────────────
-- Claim C7: isTransientError characterization
-- ───────────────────────────────────────────────────────────────────────────

/-- C7: `isTransientError` returns true exactly for objects whose `code`
property is a string among the six transient network codes, or for errors
carrying an HTTP status equal to 429 or at least 500; it returns false for
every other input — null, primitives, empty objects, plain errors without
`code`/`status`, and all other 4xx statuses (400/401/403/404/422).  (The
classifier is a total function by construction, so it never throws.) -/
theorem isTransientError_characterization (error : JSValue) :
    (isTransientError error = true ↔
      hasTransientCode error = true ∨ hasTransientStatus error = true)
    ∧ (hasTransientCode error = true ↔
        ∃ fields c, error = JSValue.vObj fields
          ∧ lookupField fields "code" = some (JSValue.vStr c)
          ∧ c ∈ TRANSIENT_NETWORK_CODES)
    ∧ (hasTransientStatus error = true ↔
        ∃ s, getErrorStatus error = some s ∧ (s = 429 ∨ 500 ≤ s))
    ∧ isTransientError JSValue.vNull = false
    ∧ isTransientError JSValue.vUndefined = false
    ∧ isTransientError (JSValue.vStr "error") = false
    ∧ isTransientError (JSValue.vObj []) = false
    ∧ isTransientError (JSValue.vObj [("code", JSValue.vNum 42)]) = false
    ∧ isTransientError
        (JSValue.vObj [("message", JSValue.vStr "Something broke")]) = false
    ∧ isTransientError (JSValue.vObj [("status", JSValue.vNum 400)]) = false
    ∧ isTransientError (JSValue.vObj [("status", JSValue.vNum 401)]) = false
    ∧ isTransientError (JSValue.vObj [("status", JSValue.vNum 403)]) = false
    ∧ isTransientError (JSValue.vObj [("status", JSValue.vNum 404)]) = false
    ∧ isTransientError (JSValue.vObj [("status", JSValue.vNum 422)]) = false
    ∧ isTransientError (JSValue.vObj [("status", JSValue.vNum 429)]) = true
    ∧ isTransientError (JSValue.vObj [("status", JSValue.vNum 500)]) = true
    ∧ isTransientError (JSValue.vObj [("status", JSValue.vNum 503)]) = true
    ∧ isTransientError (JSValue.vObj [("code", JSValue.vStr "EUNKNOWN")]) = false := by
  have hdef : isTransientError error
      = if hasTransientCode error then true else hasTransientStatus error := rfl
  refine ⟨?_, ?_, ?_, rfl, rfl, rfl, rfl, rfl, rfl, rfl, rfl, rfl, rfl, rfl,
    rfl, rfl, rfl, rfl⟩
  · rw [hdef]
    rcases hct : hasTransientCode error with _ | _ <;> simp [hct]
  · rcases error with _ | _ | s | n | b | fields
    · simp [hasTransientCode]
    · simp [hasTransientCode]
    · simp [hasTransientCode]
    · simp [hasTransientCode]
    · simp [hasTransientCode]
    · simp only [hasTransientCode, JSValue.vObj.injEq]
      rcases hlk : lookupField fields "code" with _ | v
      · simp [hlk]
      · rcases v with _ | _ | c | n | b | f2 <;> simp [hlk]
  · unfold hasTransientStatus
    rcases hst : getErrorStatus error with _ | s
    · simp
    · simp only [Option.some.injEq]
      constructor
      · intro h
        rcases Bool.or_eq_true_iff.mp h with h | h
        · exact ⟨s, rfl, Or.inl (by simpa using h)⟩
        · exact ⟨s, rfl, Or.inr (by simpa using h)⟩
      · rintro ⟨s', hs', h | h⟩
        · subst hs'; simp [h]
        · subst hs'; simp [h]

/-- Witness for C7: rate-limit status 429 is classified transient. -/
theorem isTransientError_characterization_witness :
    isTransientError (JSValue.vObj [("status", JSValue.vNum 429)]) = true := by
  exact (isTransientError_characterization
    (JSValue.vObj [("status", JSValue.vNum 429)])).2.2.2.2.2.2.2.2.2.2.2.2.2.2.1

-- ───────────────────────────────────────────────────────────────────────────
-- Claim C10: network-code precedence over HTTP status
-- ───────────────────────────────────────────────────────────────────────────

/-- C10: an object whose `code` property is a string among the six
transient network codes is classified transient regardless of any `status`
property it also carries; the HTTP-status test (429 or at least 500) is
consulted only when no transient network code matched. -/
theorem isTransientError_code_precedence :
    (∀ fields c, lookupField fields "code" = some (JSValue.vStr c) →
      c ∈ TRANSIENT_NETWORK_CODES →
      isTransientError (JSValue.vObj fields) = true)
    ∧ (∀ error, hasTransientCode error = false →
        isTransientError error = hasTransientStatus error) := by
  have hdef : ∀ error, isTransientError error
      = if hasTransientCode error then true else hasTransientStatus error :=
    fun _ => rfl
  constructor
  · intro fields c hlk hc
    have hcont : TRANSIENT_NETWORK_CODES.contains c = true := by
      simpa using hc
    have hct : hasTransientCode (JSValue.vObj fields) = true := by
      simp [hasTransientCode, hlk, hcont, hc]
    rw [hdef, hct]
    rfl
  · intro error h
    rw [hdef, h]
    rfl

/-- Witness for C10: an error with `code: "ECONNRESET"` and `status: 404`
is classified transient. -/
theorem isTransientError_code_precedence_witness :
    isTransientError (JSValue.vObj
      [("code", JSValue.vStr "ECONNRESET"), ("status", JSValue.vNum 404)])
      = true := by
  exact isTransientError_code_precedence.1
    [("code", JSValue.vStr "ECONNRESET"), ("status", JSValue.vNum 404)]
    "ECONNRESET" rfl (by decide)

-- ───────────────────────────────────────────────────────────────────────────
-- Status-event fan-out controller (modelled from the spec)
-- ───────────────────────────────────────────────────────────────────────────

/-- An open pull request as listed by the controller: its number and head
commit SHA. -/
structure PRSummary where
  number : Nat
  headSha : String
deriving DecidableEq, Repr

/-- The parameters of the open-PR listing request. -/
structure ListPullsRequest where
  state : String
  sort : String
  direction : String
  per_page : Nat
deriving DecidableEq, Repr

/-- Observable outcome of one fan-out run: the merge-readiness evaluator
invocations in order (PR number and the head SHA passed), the logged
failures in order (PR number and repository full name), and the number of
failed evaluations. -/
structure FanoutState where
  evaluated : List (Nat × String)
  loggedFailures : List (Nat × String)
  failureCount : Nat
deriving DecidableEq, Repr

/-- Modelled from the spec: one unit of fan-out work for a listed PR — skip
it unless its head SHA equals the event SHA, else invoke the merge-readiness
evaluator with the PR reference and the event SHA, recording (and counting)
a logged failure when the evaluation throws while never aborting the fold. -/
def statusFanoutStep (sha fullName : String)
    (evalMergeReadiness : Nat → Except String Unit)
    (st : FanoutState) (pr : PRSummary) : FanoutState :=
  if pr.headSha == sha then
    match evalMergeReadiness pr.number with
    | Except.ok _ =>
      { st with evaluated := st.evaluated ++ [(pr.number, sha)] }
    | Except.error _ =>
      { st with
        evaluated := st.evaluated ++ [(pr.number, sha)],
        loggedFailures := st.loggedFailures ++ [(pr.number, fullName)],
        failureCount := st.failureCount + 1 }
  else st

/-- Modelled from the spec: the commit-status webhook handler (its
implementation file is not among the provided sources; behavior follows
spec section 4.6 and the status-handler test).  When the merge-ready policy
is enabled it lists open PRs (state open, sorted by most recent update,
descending, page size 100), processes the listing in order, and finally
rejects with the aggregate message when at least one evaluation failed. -/
def handleStatusEvent (mergeReadyEnabled : Bool) (sha fullName : String)
    (openPRs : List PRSummary)
    (evalMergeReadiness : Nat → Except String Unit) :
    Option ListPullsRequest × FanoutState × Except String Unit :=
  if !mergeReadyEnabled then
    (none, ⟨[], [], 0⟩, Except.ok ())
  else
    let final := openPRs.foldl
      (statusFanoutStep sha fullName evalMergeReadiness) ⟨[], [], 0⟩
    (some ⟨"open", "updated", "desc", 100⟩, final,
      if final.failureCount = 0 then Except.ok ()
      else Except.error (toString final.failureCount
        ++ " PR(s) failed merge-readiness evaluation after status event"))

/-- Spec-side: whether a PR's merge-readiness evaluation throws. -/
def evalFails (evalMergeReadiness : Nat → Except String Unit)
    (pr : PRSummary) : Bool :=
  match evalMergeReadiness pr.number with
  | Except.ok _ => false
  | Except.error _ => true

theorem statusFanout_foldl (sha fullName : String)
    (ev : Nat → Except String Unit) :
    ∀ (l : List PRSummary) (st : FanoutState),
      (l.foldl (statusFanoutStep sha fullName ev) st).evaluated
        = st.evaluated ++ (l.filter (fun pr => pr.headSha == sha)).map
            (fun pr => (pr.number, sha))
      ∧ (l.foldl (statusFanoutStep sha fullName ev) st).loggedFailures
        = st.loggedFailures
            ++ ((l.filter (fun pr => pr.headSha == sha)).filter (evalFails ev)).map
              (fun pr => (pr.number, fullName))
      ∧ (l.foldl (statusFanoutStep sha fullName ev) st).failureCount
        = st.failureCount
            + ((l.filter (fun pr => pr.headSha == sha)).filter (evalFails ev)).length := by
  intro l
  induction l with
  | nil => intro st; simp
  | cons pr rest ih =>
    intro st
    simp only [List.foldl_cons, List.filter_cons]
    rcases hm : (pr.headSha == sha) with _ | _
    · simpa [statusFanoutStep, hm] using ih st
    · rcases hev : ev pr.number with e | u
      · have hf : evalFails ev pr = true := by simp [evalFails, hev]
        obtain ⟨h1, h2, h3⟩ := ih { st with
          evaluated := st.evaluated ++ [(pr.number, sha)],
          loggedFailures := st.loggedFailures ++ [(pr.number, fullName)],
          failureCount := st.failureCount + 1 }
        refine ⟨?_, ?_, ?_⟩
        · simp [statusFanoutStep, hm, hev, h1]
        · simp [statusFanoutStep, hm, hev, h2, hf]
        · simp [statusFanoutStep, hm, hev, h3, hf]
          omega
      · have hf : evalFails ev pr = false := by simp [evalFails, hev]
        obtain ⟨h1, h2, h3⟩ := ih { st with
          evaluated := st.evaluated ++ [(pr.number, sha)] }
        refine ⟨?_, ?_, ?_⟩
        · simp [statusFanoutStep, hm, hev, h1]
        · simp [statusFanoutStep, hm, hev, h2, hf]
        · simp [statusFanoutStep, hm, hev, h3, hf]

-- ───────────────────────────────────────────────────────────────────────────
-- Claim C8: fan-out evaluates exactly the PRs matching the status SHA
-- ───────────────────────────────────────────────────────────────────────────

/-- C8: with the merge-ready policy enabled, the controller lists open PRs
(state open, sorted by most recent update, descending, page size 100) and
invokes the merge-readiness evaluator exactly once for each listed PR whose
head SHA equals the event SHA, passing that PR and the event SHA, in
listing order; PRs whose head SHA differs are not evaluated. -/
theorem handleStatusEvent_matching_sha_only (sha fullName : String)
    (openPRs : List PRSummary) (ev : Nat → Except String Unit) :
    (handleStatusEvent true sha fullName openPRs ev).1
      = some ⟨"open", "updated", "desc", 100⟩
    ∧ (handleStatusEvent true sha fullName openPRs ev).2.1.evaluated
      = (openPRs.filter (fun pr => pr.headSha == sha)).map
          (fun pr => (pr.number, sha)) := by
  obtain ⟨h1, _, _⟩ := statusFanout_foldl sha fullName ev openPRs ⟨[], [], 0⟩
  exact ⟨rfl, by simpa [handleStatusEvent] using h1⟩

/-- Witness for C8 at the spec end-to-end example: SHA `"abc123"`, open PRs
11/12/13 with head SHAs abc123/def456/abc123 — the evaluator runs for PRs
11 and 13 only, in that order, with the event SHA. -/
theorem handleStatusEvent_matching_sha_only_witness :
    (handleStatusEvent true "abc123" "hivemoot/hivemoot-bot"
      [⟨11, "abc123"⟩, ⟨12, "def456"⟩, ⟨13, "abc123"⟩]
      (fun _ => Except.ok ())).2.1.evaluated
      = [(11, "abc123"), (13, "abc123")] := by
  rw [(handleStatusEvent_matching_sha_only "abc123" "hivemoot/hivemoot-bot"
    [⟨11, "abc123"⟩, ⟨12, "def456"⟩, ⟨13, "abc123"⟩] (fun _ => Except.ok ())).2]
  rfl

-- ───────────────────────────────────────────────────────────────────────────
-- Claim C9: fan-out isolates and aggregates per-PR failures
-- ───────────────────────────────────────────────────────────────────────────

/-- C9: with the merge-ready policy enabled, every matching PR is evaluated
even when some evaluations throw; each failure is logged in order with the
PR number and the repository full name; and the controller rejects with the
single aggregate message naming the failure count exactly when at least one
evaluation failed, completing without error otherwise. -/
theorem handleStatusEvent_aggregates_failures (sha fullName : String)
    (openPRs : List PRSummary) (ev : Nat → Except String Unit) :
    (handleStatusEvent true sha fullName openPRs ev).2.1.evaluated
      = (openPRs.filter (fun pr => pr.headSha == sha)).map
          (fun pr => (pr.number, sha))
    ∧ (handleStatusEvent true sha fullName openPRs ev).2.1.loggedFailures
      = ((openPRs.filter (fun pr => pr.headSha == sha)).filter (evalFails ev)).map
          (fun pr => (pr.number, fullName))
    ∧ (handleStatusEvent true sha fullName openPRs ev).2.2
      = (if ((openPRs.filter (fun pr => pr.headSha == sha)).filter
              (evalFails ev)).length = 0
         then Except.ok ()
         else Except.error (toString
            ((openPRs.filter (fun pr => pr.headSha == sha)).filter
              (evalFails ev)).length
            ++ " PR(s) failed merge-readiness evaluation after status event")) := by
  obtain ⟨h1, h2, h3⟩ := statusFanout_foldl sha fullName ev openPRs ⟨[], [], 0⟩
  refine ⟨by simpa [handleStatusEvent] using h1,
    by simpa [handleStatusEvent] using h2, ?_⟩
  simp only [handleStatusEvent, Bool.not_true, Bool.false_eq_true, if_false]
  rw [h3]
  simp

/-- Witness for C9 at the status-handler test scenario: PRs 11 and 13 match,
the evaluation of PR 13 throws — PR 11 is still evaluated, the failure for
PR 13 is logged with the repository full name, and the controller rejects
with the aggregate one-failure message. -/
theorem handleStatusEvent_aggregates_failures_witness :
    ((handleStatusEvent true "abc123" "hivemoot/hivemoot-bot"
        [⟨11, "abc123"⟩, ⟨13, "abc123"⟩]
        (fun n => if n == 13 then Except.error "review API unavailable"
          else Except.ok ())).2.1.evaluated
      = [(11, "abc123"), (13, "abc123")])
    ∧ ((handleStatusEvent true "abc123" "hivemoot/hivemoot-bot"
        [⟨11, "abc123"⟩, ⟨13, "abc123"⟩]
        (fun n => if n == 13 then Except.error "review API unavailable"
          else Except.ok ())).2.1.loggedFailures
      = [(13, "hivemoot/hivemoot-bot")])
    ∧ ((handleStatusEvent true "abc123" "hivemoot/hivemoot-bot"
        [⟨11, "abc123"⟩, ⟨13, "abc123"⟩]
        (fun n => if n == 13 then Except.error "review API unavailable"
          else Except.ok ())).2.2
      = Except.error
          "1 PR(s) failed merge-readiness evaluation after status event") := by
  obtain ⟨h1, h2, h3⟩ := handleStatusEvent_aggregates_failures "abc123"
    "hivemoot/hivemoot-bot" [⟨11, "abc123"⟩, ⟨13, "abc123"⟩]
    (fun n => if n == 13 then Except.error "review API unavailable"
      else Except.ok ())
  refine ⟨?_, ?_, ?_⟩
  · rw [h1]; rfl
  · rw [h2]; rfl
  · rw [h3]; rfl
